import Mathlib

/-!
Shallow embedding of `sim.py` (note-9/self-driving-car): a discrete-time
traffic simulation with a rule-based lane-keeping controller.  Python floats
are modelled as rationals, the pygame event queue as a list of discrete
input events, and the random source of `spawn_traffic` as an explicit
`SpawnChoice` oracle parameter.
-/

attribute [local semireducible] Rat.add Rat.mul Rat.sub Rat.inv Rat.ofScientific

namespace Sim

/-! ## Configuration constants (sim.py lines 7-24) -/

def WIDTH : Int := 900
def HEIGHT : Int := 600
def LANES : Int := 3
def LANE_WIDTH : Int := 120
def ROAD_X : Int := WIDTH / 2 - (LANE_WIDTH * LANES) / 2

def EGO_START_LANE : Int := 1
def EGO_START_Y : ℚ := (HEIGHT : ℚ) - 150
def EGO_WIDTH : Int := 40
def EGO_HEIGHT : Int := 70

def TRAFFIC_WIDTH : Int := 40
def TRAFFIC_HEIGHT : Int := 70
def SPAWN_INTERVAL : ℚ := 6/5

def SAFE_DISTANCE : ℚ := 120
def MAX_SPEED : ℚ := 8
def MIN_SPEED : ℚ := 2

/-! ## Entities (sim.py lines 32-46) -/

structure Car where
  lane : Int
  y : ℚ
  speed : ℚ
  w : Int
  h : Int
  is_ego : Bool := false
deriving Repr, DecidableEq

/-- Derived x position: `ROAD_X + lane * LANE_WIDTH + (LANE_WIDTH - w) / 2`
(sim.py lines 41-43; the Python `/` is float division, exact on rationals). -/
def Car.x (c : Car) : ℚ :=
  (ROAD_X : ℚ) + (c.lane : ℚ) * (LANE_WIDTH : ℚ) + ((LANE_WIDTH : ℚ) - (c.w : ℚ)) / 2

/-- Integer rectangle, as built by `pygame.Rect(int(x), int(y), w, h)`. -/
structure Rect where
  x : Int
  y : Int
  w : Int
  h : Int
deriving Repr, DecidableEq

/-- Python `int()` on a float truncates toward zero; `Int.div` is the
toward-zero division, so `num / den` is exactly that truncation. -/
def ratTrunc (q : ℚ) : Int := Int.tdiv q.num (Int.ofNat q.den)

/-- `Car.rect` (sim.py lines 45-46). -/
def Car.rect (c : Car) : Rect :=
  { x := ratTrunc c.x, y := ratTrunc c.y, w := c.w, h := c.h }

/-- `pygame.Rect.colliderect`: strict axis-aligned overlap on both axes. -/
def Rect.colliderect (a b : Rect) : Bool :=
  decide (a.x < b.x + b.w) && decide (a.x + a.w > b.x) &&
  decide (a.y < b.y + b.h) && decide (a.y + a.h > b.y)

/-! ## Helpers (sim.py lines 56-96) -/

/-- The random draws consumed by one call of `spawn_traffic`:
`random.randrange(0, LANES)`, `random.randint(0, 200)`,
`random.uniform(2.5, 6.5)`. -/
structure SpawnChoice where
  lane : Int
  yOff : Int
  speed : ℚ
deriving Repr, DecidableEq

/-- `spawn_traffic` (sim.py lines 56-61): the new car appended to `traffic`. -/
def spawn_traffic (ch : SpawnChoice) : Car :=
  { lane := ch.lane, y := -(TRAFFIC_HEIGHT : ℚ) - (ch.yOff : ℚ), speed := ch.speed,
    w := TRAFFIC_WIDTH, h := TRAFFIC_HEIGHT, is_ego := false }

/-- Gap to a candidate ahead, the key of the `min` in `find_vehicle_ahead`. -/
def gapKey (y : ℚ) (c : Car) : ℚ := y - (c.y + c.h)

/-- Python `min(ahead, key=...)`: left-to-right scan keeping the current best,
replacing it only on a strictly smaller key (first minimum wins). -/
def minByGap (y : ℚ) : Car → List Car → Car
  | best, [] => best
  | best, c :: rest =>
      if gapKey y c < gapKey y best then minByGap y c rest else minByGap y best rest

/-- `find_vehicle_ahead(lane, y)` (sim.py lines 63-68). -/
def find_vehicle_ahead (traffic : List Car) (lane : Int) (y : ℚ) : Option Car :=
  match traffic.filter (fun c => decide (c.lane = lane ∧ c.y + c.h < y)) with
  | [] => none
  | c :: rest => some (minByGap y c rest)

/-- `safe_to_change(target_lane)` (sim.py lines 70-79); the globals `traffic`
and `ego.y` become parameters.  Mirrors the loop: return `False` at the first
vehicle of the target lane intersecting the vertical safety zone. -/
def safe_to_change (traffic : List Car) (egoY : ℚ) (target_lane : Int) : Bool :=
  match traffic with
  | [] => true
  | c :: rest =>
      if c.lane = target_lane ∧ c.y + c.h > egoY - 40 ∧ c.y < egoY + 80 then false
      else safe_to_change rest egoY target_lane

inductive Action where
  | keep
  | left
  | right
deriving Repr, DecidableEq

/-- The `for dir_delta in [-1, 1]` loop body of `controller_rule_based`
(sim.py lines 92-95): first candidate lane that is in bounds and safe. -/
def firstSafeLaneChange (traffic : List Car) (egoLane : Int) (egoY : ℚ) :
    List Int → Option Action
  | [] => none
  | d :: rest =>
      if 0 ≤ egoLane + d ∧ egoLane + d < LANES ∧
          safe_to_change traffic egoY (egoLane + d) = true then
        some (if d = -1 then Action.left else Action.right)
      else firstSafeLaneChange traffic egoLane egoY rest

/-- `controller_rule_based()` (sim.py lines 81-96). -/
def controller_rule_based (ego : Car) (traffic : List Car) : Action × ℚ :=
  match find_vehicle_ahead traffic ego.lane ego.y with
  | none => (Action.keep, MAX_SPEED)
  | some current =>
      if ego.y - (current.y + current.h) < SAFE_DISTANCE then
        match firstSafeLaneChange traffic ego.lane ego.y [-1, 1] with
        | some a => (a, max MIN_SPEED (current.speed - 1/2))
        | none => (Action.keep, max MIN_SPEED (current.speed - 1/2))
      else (Action.keep, MAX_SPEED)

/-! ## Simulation state and the per-tick step machine (sim.py lines 49-53, 99-170).
The main `while` loop is modelled as a step function on an explicit state;
the pygame event queue of one tick becomes a list of `InputEvent`s and the
frame's elapsed time `dt = clock.tick(FPS) / 1000.0` an input rational. -/

structure SimState where
  ego : Car
  traffic : List Car
  time_since_spawn : ℚ
  autopilot : Bool
  collisions : Nat
  frames : Nat
deriving Repr, DecidableEq

/-- The keydown events handled by the loop (sim.py lines 108-118);
`pygame.QUIT` only ends the loop and is not part of a tick's state change. -/
inductive InputEvent where
  | toggleAutopilot
  | laneLeft
  | laneRight
  | speedUp
  | speedDown
deriving Repr, DecidableEq

/-- One event of the queue (sim.py lines 108-118). -/
def applyEvent (s : SimState) : InputEvent → SimState
  | .toggleAutopilot => { s with autopilot := !s.autopilot }
  | .laneLeft => { s with ego := { s.ego with lane := max 0 (s.ego.lane - 1) } }
  | .laneRight => { s with ego := { s.ego with lane := min (LANES - 1) (s.ego.lane + 1) } }
  | .speedUp => { s with ego := { s.ego with speed := min MAX_SPEED (s.ego.speed + 1/2) } }
  | .speedDown => { s with ego := { s.ego with speed := max (1/2) (s.ego.speed - 1/2) } }

/-- Frame counting and spawn-timer accumulation (sim.py lines 101-103). -/
def accumPhase (s : SimState) (dt : ℚ) : SimState :=
  { s with frames := s.frames + 1, time_since_spawn := s.time_since_spawn + dt }

/-- The event loop of one tick (sim.py lines 105-118), in queue order. -/
def eventsPhase (s : SimState) (events : List InputEvent) : SimState :=
  events.foldl applyEvent s

/-- Periodic spawning (sim.py lines 121-123): strictly-greater test, then
append one car and reset the accumulator to zero. -/
def spawnPhase (s : SimState) (ch : SpawnChoice) : SimState :=
  if s.time_since_spawn > SPAWN_INTERVAL then
    { s with traffic := s.traffic ++ [spawn_traffic ch], time_since_spawn := 0 }
  else s

/-- Traffic movement and off-bottom culling (sim.py lines 126-129). -/
def moveTrafficPhase (s : SimState) : SimState :=
  let moved := s.traffic.map (fun c => { c with y := c.y + c.speed })
  { s with traffic := moved.filter (fun c => decide (c.y < (HEIGHT : ℚ) + 200)) }

/-- The guarded lane-change commit (sim.py lines 135-138):
`if action == "left" and ego.lane > 0 and safe_to_change(ego.lane - 1): ...
elif action == "right" and ego.lane < LANES - 1 and safe_to_change(...): ...`. -/
def commitLane (s : SimState) (a : Action) : Car :=
  if a = Action.left ∧ s.ego.lane > 0 ∧
      safe_to_change s.traffic s.ego.y (s.ego.lane - 1) = true then
    { s.ego with lane := s.ego.lane - 1 }
  else if a = Action.right ∧ s.ego.lane < LANES - 1 ∧
      safe_to_change s.traffic s.ego.y (s.ego.lane + 1) = true then
    { s.ego with lane := s.ego.lane + 1 }
  else s.ego

/-- Ego logic under autopilot (sim.py lines 132-144): controller decision,
guarded lane-change commit, then exponential speed smoothing
`speed += (tgt - speed) * 0.08` and the clamp to `[0.5, MAX_SPEED]`. -/
def egoLogicPhase (s : SimState) : SimState :=
  if s.autopilot then
    let r := controller_rule_based s.ego s.traffic
    let ego1 := commitLane s r.1
    let sp := ego1.speed + (r.2 - ego1.speed) * (2/25)
    { s with ego := { ego1 with speed := max (1/2) (min MAX_SPEED sp) } }
  else s

/-- Ego forward motion (sim.py line 147): decreasing y is forward. -/
def moveEgoPhase (s : SimState) : SimState :=
  { s with ego := { s.ego with y := s.ego.y - s.ego.speed } }

/-- World-scroll normalization (sim.py lines 150-155). -/
def scrollPhase (s : SimState) : SimState :=
  if s.ego.y < ((HEIGHT / 2 : Int) : ℚ) then
    let shift := ((HEIGHT / 2 : Int) : ℚ) - s.ego.y
    { s with ego := { s.ego with y := s.ego.y + shift },
             traffic := s.traffic.map (fun c => { c with y := c.y + shift }) }
  else s

/-- The per-tick collision check (sim.py lines 157-163): the loop with
`break` computes whether any traffic rect collides with the ego rect. -/
def checkCollision (ego : Car) (traffic : List Car) : Bool :=
  traffic.any (fun c => (Car.rect ego).colliderect (Car.rect c))

/-- Collision recovery (sim.py lines 164-170). -/
def collisionPhase (s : SimState) : SimState :=
  if checkCollision s.ego s.traffic then
    { s with collisions := s.collisions + 1,
             ego := { s.ego with lane := EGO_START_LANE, y := EGO_START_Y, speed := 9/2 },
             traffic := [] }
  else s

/-- The tick up to (not including) the collision check. -/
def preCollide (s : SimState) (dt : ℚ) (events : List InputEvent)
    (ch : SpawnChoice) : SimState :=
  scrollPhase (moveEgoPhase (egoLogicPhase (moveTrafficPhase
    (spawnPhase (eventsPhase (accumPhase s dt) events) ch))))

/-- One full tick of the main loop (sim.py lines 100-170, drawing omitted). -/
def step (s : SimState) (dt : ℚ) (events : List InputEvent)
    (ch : SpawnChoice) : SimState :=
  collisionPhase (preCollide s dt events ch)

/-- The initial state (sim.py lines 49-53). -/
def initState : SimState :=
  { ego := { lane := EGO_START_LANE, y := EGO_START_Y, speed := 6,
             w := EGO_WIDTH, h := EGO_HEIGHT, is_ego := true },
    traffic := [], time_since_spawn := 0, autopilot := true,
    collisions := 0, frames := 0 }

/-- Ranges of the values the random source can actually deliver to one
spawn (sim.py lines 57-60), and nonnegative elapsed time. -/
structure ValidInput (dt : ℚ) (ch : SpawnChoice) : Prop where
  dt_nonneg : 0 ≤ dt
  lane_lb : 0 ≤ ch.lane
  lane_ub : ch.lane < LANES
  yOff_lb : 0 ≤ ch.yOff
  yOff_ub : ch.yOff ≤ 200
  speed_lb : 5/2 ≤ ch.speed
  speed_ub : ch.speed ≤ 13/2

/-- States the simulation can actually be in: the initial state and
everything produced from it by ticks with valid inputs. -/
inductive Reachable : SimState → Prop where
  | init : Reachable initState
  | step {s : SimState} (dt : ℚ) (events : List InputEvent) (ch : SpawnChoice) :
      Reachable s → ValidInput dt ch → Reachable (step s dt events ch)

/-! ## Lemmas about the spatial queries -/

lemma safe_to_change_eq_false_iff (traffic : List Car) (egoY : ℚ) (L : Int) :
    safe_to_change traffic egoY L = false ↔
      ∃ c ∈ traffic, c.lane = L ∧ c.y + c.h > egoY - 40 ∧ c.y < egoY + 80 := by
  induction traffic with
  | nil => simp [safe_to_change]
  | cons c rest ih =>
      by_cases h : c.lane = L ∧ c.y + c.h > egoY - 40 ∧ c.y < egoY + 80
      · simp only [safe_to_change, if_pos h]
        simp only [eq_self_iff_true, true_iff]
        exact ⟨c, List.mem_cons_self c rest, h⟩
      · simp only [safe_to_change, if_neg h, ih]
        constructor
        · rintro ⟨x, hx, hp⟩
          exact ⟨x, List.mem_cons_of_mem _ hx, hp⟩
        · rintro ⟨x, hx, hp⟩
          rcases List.mem_cons.mp hx with rfl | hx
          · exact absurd hp h
          · exact ⟨x, hx, hp⟩

lemma safe_to_change_of_no_lane {traffic : List Car} {egoY : ℚ} {L : Int}
    (hall : ∀ c ∈ traffic, c.lane ≠ L) : safe_to_change traffic egoY L = true := by
  cases hsafe : safe_to_change traffic egoY L with
  | true => rfl
  | false =>
      obtain ⟨c, hc, hlane, -⟩ := (safe_to_change_eq_false_iff traffic egoY L).mp hsafe
      exact absurd hlane (hall c hc)

lemma minByGap_mem (y : ℚ) (b : Car) (l : List Car) :
    minByGap y b l = b ∨ minByGap y b l ∈ l := by
  induction l generalizing b with
  | nil => left; rfl
  | cons c rest ih =>
      simp only [minByGap]
      split
      · rcases ih c with h | h
        · right; rw [h]; exact List.mem_cons_self c rest
        · right; exact List.mem_cons_of_mem _ h
      · rcases ih b with h | h
        · left; exact h
        · right; exact List.mem_cons_of_mem _ h

lemma minByGap_le (y : ℚ) (b : Car) (l : List Car) :
    gapKey y (minByGap y b l) ≤ gapKey y b ∧
      ∀ c ∈ l, gapKey y (minByGap y b l) ≤ gapKey y c := by
  induction l generalizing b with
  | nil => exact ⟨le_refl _, by simp⟩
  | cons c rest ih =>
      simp only [minByGap]
      split
      case isTrue h =>
        obtain ⟨h1, h2⟩ := ih c
        refine ⟨h1.trans (le_of_lt h), ?_⟩
        intro x hx
        rcases List.mem_cons.mp hx with rfl | hx
        · exact h1
        · exact h2 x hx
      case isFalse h =>
        obtain ⟨h1, h2⟩ := ih b
        refine ⟨h1, ?_⟩
        intro x hx
        rcases List.mem_cons.mp hx with rfl | hx
        · exact h1.trans (not_lt.mp h)
        · exact h2 x hx

/-- The filter predicate of `find_vehicle_ahead`, from the list comprehension. -/
lemma find_vehicle_ahead_eq_none_iff (traffic : List Car) (lane : Int) (y : ℚ) :
    find_vehicle_ahead traffic lane y = none ↔
      ∀ c ∈ traffic, c.lane = lane → ¬(c.y + c.h < y) := by
  unfold find_vehicle_ahead
  cases hf : traffic.filter (fun c => decide (c.lane = lane ∧ c.y + c.h < y)) with
  | nil =>
      simp only [true_iff]
      intro c hc hlane hy
      have hmem : c ∈ traffic.filter (fun c => decide (c.lane = lane ∧ c.y + c.h < y)) :=
        List.mem_filter.mpr ⟨hc, by simp [hlane, hy]⟩
      rw [hf] at hmem
      exact absurd hmem (List.not_mem_nil c)
  | cons c rest =>
      constructor
      · intro habs
        exact absurd habs (Option.some_ne_none _)
      · intro hall
        have hcmem : c ∈ traffic.filter (fun c => decide (c.lane = lane ∧ c.y + c.h < y)) := by
          rw [hf]; exact List.mem_cons_self c rest
        obtain ⟨hc, hp⟩ := List.mem_filter.mp hcmem
        simp only [decide_eq_true_eq] at hp
        exact absurd hp.2 (hall c hc hp.1)

lemma find_vehicle_ahead_some {traffic : List Car} {lane : Int} {y : ℚ} {b : Car}
    (h : find_vehicle_ahead traffic lane y = some b) :
    b ∈ traffic ∧ b.lane = lane ∧ b.y + b.h < y ∧
      ∀ c ∈ traffic, c.lane = lane → c.y + c.h < y →
        y - (b.y + b.h) ≤ y - (c.y + c.h) := by
  unfold find_vehicle_ahead at h
  cases hf : traffic.filter (fun c => decide (c.lane = lane ∧ c.y + c.h < y)) with
  | nil => rw [hf] at h; exact absurd h (by simp)
  | cons c rest =>
      rw [hf] at h
      have hb : b = minByGap y c rest := by
        have := h
        simp only [Option.some.injEq] at this
        exact this.symm
      have hbmem : b ∈ traffic.filter (fun c => decide (c.lane = lane ∧ c.y + c.h < y)) := by
        rw [hf]
        rcases minByGap_mem y c rest with hm | hm
        · rw [hb, hm]; exact List.mem_cons_self c rest
        · exact List.mem_cons_of_mem _ (hb ▸ hm)
      obtain ⟨hbtr, hbp⟩ := List.mem_filter.mp hbmem
      simp only [decide_eq_true_eq] at hbp
      refine ⟨hbtr, hbp.1, hbp.2, ?_⟩
      intro x hx hxlane hxy
      have hxf : x ∈ traffic.filter (fun c => decide (c.lane = lane ∧ c.y + c.h < y)) :=
        List.mem_filter.mpr ⟨hx, by simp [hxlane, hxy]⟩
      rw [hf] at hxf
      obtain ⟨h1, h2⟩ := minByGap_le y c rest
      rcases List.mem_cons.mp hxf with rfl | hxf
      · exact hb ▸ h1
      · exact hb ▸ h2 x hxf

/-! ## Claims C2, C3, C4 -/

/-- C2: `isLaneSafe(L, egoY)` (that is, `safe_to_change`) returns false iff
some traffic vehicle with `lane = L` satisfies `vehicle.y + vehicle.h >
egoY - 40` and `vehicle.y < egoY + 80` (both strict); in particular it
returns true whenever no traffic vehicle is in lane `L`. -/
theorem claim_C2 (traffic : List Car) (L : Int) (egoY : ℚ) :
    (safe_to_change traffic egoY L = false ↔
      ∃ c ∈ traffic, c.lane = L ∧ c.y + c.h > egoY - 40 ∧ c.y < egoY + 80)
    ∧ ((∀ c ∈ traffic, c.lane ≠ L) → safe_to_change traffic egoY L = true) :=
  ⟨safe_to_change_eq_false_iff traffic egoY L, safe_to_change_of_no_lane⟩

/-- C2 witness: a car in lane 0 straddling the ego's safety window makes
lane 0 unsafe, and a lane with no traffic is safe. -/
theorem claim_C2_witness :
    safe_to_change [{ lane := 0, y := 390, speed := 3, w := 40, h := 70 }] 400 0 = false ∧
    safe_to_change [{ lane := 0, y := 390, speed := 3, w := 40, h := 70 }] 400 2 = true := by
  constructor
  · exact (claim_C2 [{ lane := 0, y := 390, speed := 3, w := 40, h := 70 }] 0 400).1.mpr
      ⟨{ lane := 0, y := 390, speed := 3, w := 40, h := 70 },
        List.mem_cons_self _ _, rfl, by norm_num, by norm_num⟩
  · exact (claim_C2 [{ lane := 0, y := 390, speed := 3, w := 40, h := 70 }] 2 400).2
      (by intro c hc; simp at hc; subst hc; decide)

/-- C3: `nearestAhead(L, Y)` (that is, `find_vehicle_ahead`) returns none iff
no traffic vehicle in lane `L` has `y + h < Y`; otherwise it returns a
vehicle of lane `L` with `y + h < Y` minimizing `Y - (y + h)`; in
particular it never returns a vehicle with `y + h ≥ Y`. -/
theorem claim_C3 (traffic : List Car) (L : Int) (Y : ℚ) :
    (find_vehicle_ahead traffic L Y = none ↔
      ∀ c ∈ traffic, c.lane = L → ¬(c.y + c.h < Y))
    ∧ ∀ b, find_vehicle_ahead traffic L Y = some b →
        b ∈ traffic ∧ b.lane = L ∧ b.y + b.h < Y ∧
          ∀ c ∈ traffic, c.lane = L → c.y + c.h < Y →
            Y - (b.y + b.h) ≤ Y - (c.y + c.h) :=
  ⟨find_vehicle_ahead_eq_none_iff traffic L Y, fun _ h => find_vehicle_ahead_some h⟩

/-- C3 witness: with two cars ahead in lane 1, the nearer one (larger
`y + h`) is returned and is strictly ahead of the reference position. -/
theorem claim_C3_witness :
    ({ lane := 1, y := 280, speed := 4, w := 40, h := 70 } : Car).y +
        (({ lane := 1, y := 280, speed := 4, w := 40, h := 70 } : Car).h : ℚ) < 400 ∧
    ({ lane := 1, y := 280, speed := 4, w := 40, h := 70 } : Car) ∈
      [{ lane := 1, y := 100, speed := 5, w := 40, h := 70 },
       { lane := 1, y := 280, speed := 4, w := 40, h := 70 }] := by
  have h := (claim_C3
      [{ lane := 1, y := 100, speed := 5, w := 40, h := 70 },
       { lane := 1, y := 280, speed := 4, w := 40, h := 70 }] 1 400).2
      { lane := 1, y := 280, speed := 4, w := 40, h := 70 } (by decide)
  exact ⟨h.2.2.1, h.1⟩

/-- C4: the per-tick collision check reports a collision iff some traffic
vehicle's integer bounding box strictly overlaps the ego's on both axes;
touching-only rectangles, such as `(0,0,40,70)` and `(40,0,40,70)`, do not
collide. -/
theorem claim_C4 (ego : Car) (traffic : List Car) :
    (checkCollision ego traffic = true ↔ ∃ c ∈ traffic,
        (Car.rect ego).x < (Car.rect c).x + (Car.rect c).w ∧
        (Car.rect ego).x + (Car.rect ego).w > (Car.rect c).x ∧
        (Car.rect ego).y < (Car.rect c).y + (Car.rect c).h ∧
        (Car.rect ego).y + (Car.rect ego).h > (Car.rect c).y)
    ∧ Rect.colliderect { x := 0, y := 0, w := 40, h := 70 }
        { x := 40, y := 0, w := 40, h := 70 } = false := by
  constructor
  · simp only [checkCollision, List.any_eq_true, Rect.colliderect,
      Bool.and_eq_true, decide_eq_true_eq]
    constructor
    · rintro ⟨c, hc, ⟨⟨h1, h2⟩, h3⟩, h4⟩
      exact ⟨c, hc, h1, h2, h3, h4⟩
    · rintro ⟨c, hc, h1, h2, h3, h4⟩
      exact ⟨c, hc, ⟨⟨h1, h2⟩, h3⟩, h4⟩
  · decide

/-! ## Claim C1: the rule-based controller -/

lemma firstSafeLaneChange_pair (traffic : List Car) (L : Int) (y : ℚ) :
    firstSafeLaneChange traffic L y [-1, 1] =
      if 0 ≤ L - 1 ∧ L - 1 < LANES ∧ safe_to_change traffic y (L - 1) = true then
        some Action.left
      else if 0 ≤ L + 1 ∧ L + 1 < LANES ∧ safe_to_change traffic y (L + 1) = true then
        some Action.right
      else none := by
  have h1 : L + (-1 : Int) = L - 1 := by ring
  simp [firstSafeLaneChange, h1]

/-- C1: the controller returns `(keep, MAX_SPEED)` when nothing blocks
(no vehicle ahead, or gap at least `SAFE_DISTANCE`); otherwise it slows to
`max MIN_SPEED (blocker.speed - 0.5)` and takes the first of the candidate
lanes `ego.lane - 1`, `ego.lane + 1` that is within `[0, LANES)` and safe,
returning `keep` at the reduced speed when neither qualifies. -/
theorem claim_C1 (e : Car) (traffic : List Car) :
    (find_vehicle_ahead traffic e.lane e.y = none →
       controller_rule_based e traffic = (Action.keep, MAX_SPEED))
    ∧ ∀ b, find_vehicle_ahead traffic e.lane e.y = some b →
        (SAFE_DISTANCE ≤ e.y - (b.y + b.h) →
           controller_rule_based e traffic = (Action.keep, MAX_SPEED))
        ∧ (e.y - (b.y + b.h) < SAFE_DISTANCE →
            ((0 ≤ e.lane - 1 ∧ e.lane - 1 < LANES ∧
                safe_to_change traffic e.y (e.lane - 1) = true) →
               controller_rule_based e traffic =
                 (Action.left, max MIN_SPEED (b.speed - 1/2)))
            ∧ (¬(0 ≤ e.lane - 1 ∧ e.lane - 1 < LANES ∧
                  safe_to_change traffic e.y (e.lane - 1) = true) →
               (0 ≤ e.lane + 1 ∧ e.lane + 1 < LANES ∧
                  safe_to_change traffic e.y (e.lane + 1) = true) →
               controller_rule_based e traffic =
                 (Action.right, max MIN_SPEED (b.speed - 1/2)))
            ∧ (¬(0 ≤ e.lane - 1 ∧ e.lane - 1 < LANES ∧
                  safe_to_change traffic e.y (e.lane - 1) = true) →
               ¬(0 ≤ e.lane + 1 ∧ e.lane + 1 < LANES ∧
                  safe_to_change traffic e.y (e.lane + 1) = true) →
               controller_rule_based e traffic =
                 (Action.keep, max MIN_SPEED (b.speed - 1/2)))) := by
  constructor
  · intro h
    simp [controller_rule_based, h]
  · intro b hb
    constructor
    · intro hge
      simp [controller_rule_based, hb, not_lt.mpr hge]
    · intro hlt
      refine ⟨?_, ?_, ?_⟩
      · intro hleft
        simp only [controller_rule_based, hb]
        rw [if_pos hlt, firstSafeLaneChange_pair, if_pos hleft]
      · intro hnl hr
        simp only [controller_rule_based, hb]
        rw [if_pos hlt, firstSafeLaneChange_pair, if_neg hnl, if_pos hr]
      · intro hnl hnr
        simp only [controller_rule_based, hb]
        rw [if_pos hlt, firstSafeLaneChange_pair, if_neg hnl, if_neg hnr]

/-- C1 witness: spec scenario — ego in lane 1 at y 400, blocker in lane 1
with rear edge at 350 (gap 50 < 120) and speed 4; lane 0 is free, so the
controller changes left at speed `max 2 3.5`. -/
theorem claim_C1_witness :
    controller_rule_based
        { lane := 1, y := 400, speed := 6, w := 40, h := 70, is_ego := true }
        [{ lane := 1, y := 280, speed := 4, w := 40, h := 70 }] =
      (Action.left,
        max MIN_SPEED (({ lane := 1, y := 280, speed := 4, w := 40, h := 70 } : Car).speed - 1/2)) := by
  have h := claim_C1
      { lane := 1, y := 400, speed := 6, w := 40, h := 70, is_ego := true }
      [{ lane := 1, y := 280, speed := 4, w := 40, h := 70 }]
  exact ((h.2 { lane := 1, y := 280, speed := 4, w := 40, h := 70 }
      (by decide)).2 (by decide)).1 (by decide)

/-! ## Field-preservation lemmas for the tick phases -/

lemma applyEvent_collisions (s : SimState) (e : InputEvent) :
    (applyEvent s e).collisions = s.collisions := by cases e <;> rfl

lemma applyEvent_time_since_spawn (s : SimState) (e : InputEvent) :
    (applyEvent s e).time_since_spawn = s.time_since_spawn := by cases e <;> rfl

lemma eventsPhase_collisions (events : List InputEvent) (s : SimState) :
    (eventsPhase s events).collisions = s.collisions := by
  induction events generalizing s with
  | nil => rfl
  | cons e rest ih =>
      show (eventsPhase (applyEvent s e) rest).collisions = s.collisions
      rw [ih, applyEvent_collisions]

lemma eventsPhase_time_since_spawn (events : List InputEvent) (s : SimState) :
    (eventsPhase s events).time_since_spawn = s.time_since_spawn := by
  induction events generalizing s with
  | nil => rfl
  | cons e rest ih =>
      show (eventsPhase (applyEvent s e) rest).time_since_spawn = s.time_since_spawn
      rw [ih, applyEvent_time_since_spawn]

lemma spawnPhase_collisions (s : SimState) (ch : SpawnChoice) :
    (spawnPhase s ch).collisions = s.collisions := by
  unfold spawnPhase; split <;> rfl

lemma egoLogicPhase_collisions (s : SimState) :
    (egoLogicPhase s).collisions = s.collisions := by
  unfold egoLogicPhase; split <;> rfl

lemma scrollPhase_collisions (s : SimState) :
    (scrollPhase s).collisions = s.collisions := by
  unfold scrollPhase; split <;> rfl

lemma preCollide_collisions (s : SimState) (dt : ℚ) (events : List InputEvent)
    (ch : SpawnChoice) : (preCollide s dt events ch).collisions = s.collisions := by
  unfold preCollide moveEgoPhase moveTrafficPhase
  rw [scrollPhase_collisions]
  show (egoLogicPhase _).collisions = _
  rw [egoLogicPhase_collisions]
  show (spawnPhase _ _).collisions = _
  rw [spawnPhase_collisions, eventsPhase_collisions]
  rfl

/-! ## Claim C5: collision recovery -/

/-- C5: in a tick whose collision check (run on the post-movement state)
finds an overlap, the counter increments by exactly one, the ego resets to
`EGO_START_LANE`, `EGO_START_Y` and speed 4.5, and the traffic collection
empties; in a tick without overlap none of that happens. -/
theorem claim_C5 (s : SimState) (dt : ℚ) (events : List InputEvent) (ch : SpawnChoice) :
    (checkCollision (preCollide s dt events ch).ego (preCollide s dt events ch).traffic = true →
       (step s dt events ch).collisions = s.collisions + 1 ∧
       (step s dt events ch).ego.lane = EGO_START_LANE ∧
       (step s dt events ch).ego.y = EGO_START_Y ∧
       (step s dt events ch).ego.speed = 9/2 ∧
       (step s dt events ch).traffic = [])
    ∧ (checkCollision (preCollide s dt events ch).ego (preCollide s dt events ch).traffic = false →
       (step s dt events ch).collisions = s.collisions ∧
       step s dt events ch = preCollide s dt events ch) := by
  constructor
  · intro h
    unfold step collisionPhase
    rw [if_pos h]
    exact ⟨congrArg (· + 1) (preCollide_collisions s dt events ch), rfl, rfl, rfl, rfl⟩
  · intro h
    unfold step collisionPhase
    rw [if_neg (by simp [h])]
    exact ⟨preCollide_collisions s dt events ch, rfl⟩

/-- A stopped car sitting right where the slow manual ego moves this tick. -/
def crashCar : Car := { lane := 1, y := 330, speed := 0, w := 40, h := 70 }

def crashEgo : Car := { lane := 1, y := 400, speed := 1, w := 40, h := 70, is_ego := true }

def crashState : SimState :=
  { ego := crashEgo, traffic := [crashCar], time_since_spawn := 0,
    autopilot := false, collisions := 0, frames := 0 }

/-- An arbitrary but in-range draw of the traffic generator. -/
def someChoice : SpawnChoice := { lane := 0, yOff := 0, speed := 3 }

/-- C5 witness: from `crashState` the tick detects the overlap, the counter
goes from 0 to 1, the ego resets and the traffic collection empties. -/
theorem claim_C5_witness :
    (step crashState 0 [] someChoice).collisions = crashState.collisions + 1 ∧
    (step crashState 0 [] someChoice).ego.lane = EGO_START_LANE ∧
    (step crashState 0 [] someChoice).ego.speed = 9/2 ∧
    (step crashState 0 [] someChoice).traffic = [] := by
  have h := (claim_C5 crashState 0 [] someChoice).1 (by decide)
  exact ⟨h.1, h.2.1, h.2.2.2.1, h.2.2.2.2⟩

/-! ## Claim C8: the spawn accumulator.

The code spawns only when the accumulator STRICTLY exceeds `SPAWN_INTERVAL`
(`if time_since_spawn > SPAWN_INTERVAL`, sim.py line 121): at exactly
`SPAWN_INTERVAL` nothing spawns, refuting the claim as stated. -/

/-- C8 counterexample: one tick from the initial state with `dt = 1.2`
accumulates exactly `SPAWN_INTERVAL`, yet no vehicle is appended and the
accumulator keeps the value 1.2 instead of resetting. -/
theorem claim_C8_counterexample :
    initState.time_since_spawn + 6/5 = SPAWN_INTERVAL ∧
    (step initState (6/5) [] someChoice).traffic = [] ∧
    (step initState (6/5) [] someChoice).time_since_spawn = 6/5 := by
  refine ⟨by decide, by decide, by decide⟩

/-- C8 amended: the accumulator after time accumulation and event handling
is `previous + dt`; whenever it STRICTLY exceeds `SPAWN_INTERVAL` the spawn
phase appends exactly one vehicle and resets the accumulator to 0 (which is
at most the nonnegative remainder); otherwise the spawn phase is the
identity; in every case at most one vehicle is appended per tick. -/
theorem claim_C8_amended (s : SimState) (dt : ℚ) (events : List InputEvent)
    (ch : SpawnChoice) :
    ((eventsPhase (accumPhase s dt) events).time_since_spawn = s.time_since_spawn + dt)
    ∧ (∀ s2 : SimState, SPAWN_INTERVAL < s2.time_since_spawn →
        (spawnPhase s2 ch).traffic = s2.traffic ++ [spawn_traffic ch] ∧
        (spawnPhase s2 ch).time_since_spawn = 0 ∧
        0 ≤ s2.time_since_spawn - SPAWN_INTERVAL)
    ∧ (∀ s2 : SimState, ¬ SPAWN_INTERVAL < s2.time_since_spawn → spawnPhase s2 ch = s2)
    ∧ (∀ s2 : SimState, (spawnPhase s2 ch).traffic.length ≤ s2.traffic.length + 1) := by
  refine ⟨?_, ?_, ?_, ?_⟩
  · rw [eventsPhase_time_since_spawn]; rfl
  · intro s2 h
    unfold spawnPhase
    rw [if_pos h]
    exact ⟨rfl, rfl, by linarith [h.le]⟩
  · intro s2 h
    unfold spawnPhase
    rw [if_neg h]
  · intro s2
    unfold spawnPhase
    split
    · simp
    · simp

/-- C8 amended witness: with the accumulator at 2 > 1.2, the spawn phase
appends exactly the generated car and resets the accumulator to 0. -/
theorem claim_C8_amended_witness :
    (spawnPhase { crashState with time_since_spawn := 2 } someChoice).traffic =
      crashState.traffic ++ [spawn_traffic someChoice] ∧
    (spawnPhase { crashState with time_since_spawn := 2 } someChoice).time_since_spawn = 0 := by
  have h := (claim_C8_amended crashState 0 [] someChoice).2.1
      { crashState with time_since_spawn := 2 } (by decide)
  exact ⟨h.1, h.2.1⟩

/-! ## Claim C9: world-scroll normalization -/

lemma mem_zip_map_self {f : Car → Car} {l : List Car} {p : Car × Car}
    (hp : p ∈ (l.map f).zip l) : p.1 = f p.2 := by
  induction l with
  | nil => simp at hp
  | cons c rest ih =>
      simp only [List.map_cons, List.zip_cons_cons, List.mem_cons] at hp
      rcases hp with rfl | hp
      · rfl
      · exact ih hp

/-- C9: when the ego ends its movement above the midpoint `HEIGHT // 2`,
the scroll phase adds the single value `shift = HEIGHT // 2 - ego.y` to the
ego's and every traffic vehicle's y; the ego lands exactly on the midpoint,
all pairwise position differences are preserved, and no lane, speed or
counter changes; when the ego is at or below the midpoint nothing moves. -/
theorem claim_C9 (s : SimState) :
    (s.ego.y < ((HEIGHT / 2 : Int) : ℚ) →
       (scrollPhase s).ego.y = ((HEIGHT / 2 : Int) : ℚ) ∧
       (scrollPhase s).ego.lane = s.ego.lane ∧
       (scrollPhase s).ego.speed = s.ego.speed ∧
       (scrollPhase s).traffic = s.traffic.map
         (fun c => { c with y := c.y + (((HEIGHT / 2 : Int) : ℚ) - s.ego.y) }) ∧
       (scrollPhase s).autopilot = s.autopilot ∧
       (scrollPhase s).collisions = s.collisions ∧
       (scrollPhase s).frames = s.frames ∧
       (scrollPhase s).time_since_spawn = s.time_since_spawn ∧
       (∀ p ∈ (scrollPhase s).traffic.zip s.traffic,
          p.1.y - (scrollPhase s).ego.y = p.2.y - s.ego.y ∧
          p.1.lane = p.2.lane ∧ p.1.speed = p.2.speed) ∧
       (∀ p ∈ (scrollPhase s).traffic.zip s.traffic,
          ∀ q ∈ (scrollPhase s).traffic.zip s.traffic,
            p.1.y - q.1.y = p.2.y - q.2.y))
    ∧ (((HEIGHT / 2 : Int) : ℚ) ≤ s.ego.y → scrollPhase s = s) := by
  constructor
  · intro h
    have hegoY : (scrollPhase s).ego.y = ((HEIGHT / 2 : Int) : ℚ) := by
      unfold scrollPhase
      rw [if_pos h]
      show s.ego.y + (((HEIGHT / 2 : Int) : ℚ) - s.ego.y) = _
      ring
    have htraffic : (scrollPhase s).traffic = s.traffic.map
        (fun c => { c with y := c.y + (((HEIGHT / 2 : Int) : ℚ) - s.ego.y) }) := by
      unfold scrollPhase
      rw [if_pos h]
    refine ⟨hegoY, ?_, ?_, htraffic, ?_, ?_, ?_, ?_, ?_, ?_⟩
    · unfold scrollPhase; rw [if_pos h]
    · unfold scrollPhase; rw [if_pos h]
    · unfold scrollPhase; rw [if_pos h]
    · unfold scrollPhase; rw [if_pos h]
    · unfold scrollPhase; rw [if_pos h]
    · unfold scrollPhase; rw [if_pos h]
    · intro p hp
      rw [htraffic] at hp
      have hpe := mem_zip_map_self hp
      rw [hpe, hegoY]
      refine ⟨by show p.2.y + _ - _ = _; ring, rfl, rfl⟩
    · intro p hp q hq
      rw [htraffic] at hp
      rw [htraffic] at hq
      rw [mem_zip_map_self hp, mem_zip_map_self hq]
      show p.2.y + _ - (q.2.y + _) = _
      ring
  · intro h
    unfold scrollPhase
    rw [if_neg (not_lt.mpr h)]

/-- A state with the ego above the midpoint and one traffic car, to
exercise the scroll branch. -/
def highState : SimState :=
  { ego := { lane := 1, y := 250, speed := 6, w := 40, h := 70, is_ego := true },
    traffic := [{ lane := 0, y := 100, speed := 3, w := 40, h := 70 }],
    time_since_spawn := 0, autopilot := true, collisions := 0, frames := 0 }

/-- C9 witness: from `highState` (ego at 250 < 300) the scroll pins the ego
to the midpoint and leaves the counters alone. -/
theorem claim_C9_witness :
    (scrollPhase highState).ego.y = ((HEIGHT / 2 : Int) : ℚ) ∧
    (scrollPhase highState).ego.lane = highState.ego.lane ∧
    (scrollPhase highState).collisions = highState.collisions := by
  have h := (claim_C9 highState).1 (by decide)
  exact ⟨h.1, h.2.1, h.2.2.2.2.2.1⟩

/-! ## Claims C6, C7: reachable-state invariants -/

def laneOK (c : Car) : Prop := 0 ≤ c.lane ∧ c.lane < LANES

def lanesOK (s : SimState) : Prop := laneOK s.ego ∧ ∀ c ∈ s.traffic, laneOK c

def speedOK (s : SimState) : Prop := 1/2 ≤ s.ego.speed ∧ s.ego.speed ≤ MAX_SPEED

lemma lanesOK_applyEvent {s : SimState} (h : lanesOK s) (e : InputEvent) :
    lanesOK (applyEvent s e) := by
  obtain ⟨⟨hl, hu⟩, htr⟩ := h
  cases e
  · exact ⟨⟨hl, hu⟩, htr⟩
  · exact ⟨⟨le_max_left _ _, max_lt (by omega) (by omega)⟩, htr⟩
  · exact ⟨⟨le_min (by omega) (by omega), lt_of_le_of_lt (min_le_left _ _) (by omega)⟩, htr⟩
  · exact ⟨⟨hl, hu⟩, htr⟩
  · exact ⟨⟨hl, hu⟩, htr⟩

lemma lanesOK_eventsPhase {s : SimState} (events : List InputEvent) (h : lanesOK s) :
    lanesOK (eventsPhase s events) := by
  induction events generalizing s with
  | nil => exact h
  | cons e rest ih => exact ih (lanesOK_applyEvent h e)

lemma lanesOK_accumPhase {s : SimState} (dt : ℚ) (h : lanesOK s) :
    lanesOK (accumPhase s dt) := h

lemma lanesOK_spawnPhase {s : SimState} {ch : SpawnChoice} (h : lanesOK s)
    (hch : 0 ≤ ch.lane ∧ ch.lane < LANES) : lanesOK (spawnPhase s ch) := by
  unfold spawnPhase
  split
  · refine ⟨h.1, ?_⟩
    intro c hc
    rcases List.mem_append.mp hc with hc | hc
    · exact h.2 c hc
    · rcases List.mem_singleton.mp hc with rfl
      exact hch
  · exact h

lemma lanesOK_moveTrafficPhase {s : SimState} (h : lanesOK s) :
    lanesOK (moveTrafficPhase s) := by
  refine ⟨h.1, ?_⟩
  intro c hc
  obtain ⟨hc, -⟩ := List.mem_filter.mp hc
  obtain ⟨a, ha, rfl⟩ := List.mem_map.mp hc
  exact h.2 a ha

lemma laneOK_commitLane {s : SimState} (a : Action) (h : laneOK s.ego) :
    laneOK (commitLane s a) := by
  obtain ⟨hl, hu⟩ := h
  unfold commitLane
  split_ifs with h1 h2
  · obtain ⟨-, hpos, -⟩ := h1
    constructor
    · show (0 : Int) ≤ s.ego.lane - 1
      omega
    · show s.ego.lane - 1 < LANES
      omega
  · obtain ⟨-, hlt, -⟩ := h2
    constructor
    · show (0 : Int) ≤ s.ego.lane + 1
      omega
    · show s.ego.lane + 1 < LANES
      omega
  · exact ⟨hl, hu⟩

lemma lanesOK_egoLogicPhase {s : SimState} (h : lanesOK s) :
    lanesOK (egoLogicPhase s) := by
  unfold egoLogicPhase
  split
  · exact ⟨laneOK_commitLane _ h.1, h.2⟩
  · exact h

lemma lanesOK_moveEgoPhase {s : SimState} (h : lanesOK s) :
    lanesOK (moveEgoPhase s) := h

lemma lanesOK_scrollPhase {s : SimState} (h : lanesOK s) :
    lanesOK (scrollPhase s) := by
  unfold scrollPhase
  split
  · refine ⟨h.1, ?_⟩
    intro c hc
    obtain ⟨a, ha, rfl⟩ := List.mem_map.mp hc
    exact h.2 a ha
  · exact h

lemma lanesOK_collisionPhase {s : SimState} (h : lanesOK s) :
    lanesOK (collisionPhase s) := by
  unfold collisionPhase
  split
  · refine ⟨⟨?_, ?_⟩, ?_⟩
    · show (0 : Int) ≤ EGO_START_LANE
      decide
    · show EGO_START_LANE < LANES
      decide
    · intro c hc
      exact absurd hc (List.not_mem_nil c)
  · exact h

lemma lanesOK_step {s : SimState} {dt : ℚ} {events : List InputEvent}
    {ch : SpawnChoice} (h : lanesOK s) (hv : ValidInput dt ch) :
    lanesOK (step s dt events ch) :=
  lanesOK_collisionPhase (lanesOK_scrollPhase (lanesOK_moveEgoPhase
    (lanesOK_egoLogicPhase (lanesOK_moveTrafficPhase (lanesOK_spawnPhase
      (lanesOK_eventsPhase events (lanesOK_accumPhase dt h))
      ⟨hv.lane_lb, hv.lane_ub⟩)))))

lemma lanesOK_reachable {s : SimState} (h : Reachable s) : lanesOK s := by
  induction h with
  | init =>
      refine ⟨⟨by decide, by decide⟩, ?_⟩
      intro c hc
      simp [initState] at hc
  | step dt events ch hr hv ih => exact lanesOK_step ih hv

lemma speedOK_applyEvent {s : SimState} (h : speedOK s) (e : InputEvent) :
    speedOK (applyEvent s e) := by
  obtain ⟨hl, hu⟩ := h
  cases e
  · exact ⟨hl, hu⟩
  · exact ⟨hl, hu⟩
  · exact ⟨hl, hu⟩
  · exact ⟨le_min (by decide) (by linarith), min_le_left _ _⟩
  · exact ⟨le_max_left _ _, max_le (by decide) (by linarith)⟩

lemma speedOK_eventsPhase {s : SimState} (events : List InputEvent) (h : speedOK s) :
    speedOK (eventsPhase s events) := by
  induction events generalizing s with
  | nil => exact h
  | cons e rest ih => exact ih (speedOK_applyEvent h e)

lemma speedOK_spawnPhase {s : SimState} (ch : SpawnChoice) (h : speedOK s) :
    speedOK (spawnPhase s ch) := by
  unfold spawnPhase; split
  · exact h
  · exact h

lemma speedOK_moveTrafficPhase {s : SimState} (h : speedOK s) :
    speedOK (moveTrafficPhase s) := h

lemma speedOK_egoLogicPhase {s : SimState} (h : speedOK s) :
    speedOK (egoLogicPhase s) := by
  unfold egoLogicPhase
  split
  · exact ⟨le_max_left _ _, max_le (by decide) (min_le_left _ _)⟩
  · exact h

lemma speedOK_moveEgoPhase {s : SimState} (h : speedOK s) :
    speedOK (moveEgoPhase s) := h

lemma speedOK_scrollPhase {s : SimState} (h : speedOK s) :
    speedOK (scrollPhase s) := by
  unfold scrollPhase; split
  · exact h
  · exact h

lemma speedOK_collisionPhase {s : SimState} (h : speedOK s) :
    speedOK (collisionPhase s) := by
  unfold collisionPhase; split
  · constructor
    · show (1 : ℚ)/2 ≤ 9/2
      decide
    · show (9 : ℚ)/2 ≤ MAX_SPEED
      decide
  · exact h

lemma speedOK_step {s : SimState} (dt : ℚ) (events : List InputEvent)
    (ch : SpawnChoice) (h : speedOK s) : speedOK (step s dt events ch) :=
  speedOK_collisionPhase (speedOK_scrollPhase (speedOK_moveEgoPhase
    (speedOK_egoLogicPhase (speedOK_moveTrafficPhase (speedOK_spawnPhase ch
      (speedOK_eventsPhase events h))))))

lemma speedOK_reachable {s : SimState} (h : Reachable s) : speedOK s := by
  induction h with
  | init => exact ⟨by decide, by decide⟩
  | step dt events ch hr hv ih => exact speedOK_step dt events ch ih

/-- C6: in every reachable world state, the ego's lane and every traffic
vehicle's lane lie in `[0, LANES)` — spawning draws in range, autopilot
commits are bounds-guarded, manual lane keys clamp, and the collision reset
uses the start lane. -/
theorem claim_C6 (s : SimState) (h : Reachable s) :
    (0 ≤ s.ego.lane ∧ s.ego.lane < LANES) ∧
      ∀ c ∈ s.traffic, 0 ≤ c.lane ∧ c.lane < LANES :=
  lanesOK_reachable h

/-- C6 witness: the invariant at the initial state and after one tick. -/
theorem claim_C6_witness :
    (0 ≤ initState.ego.lane ∧ initState.ego.lane < LANES) ∧
      ∀ c ∈ initState.traffic, 0 ≤ c.lane ∧ c.lane < LANES :=
  claim_C6 initState Reachable.init

/-- C7: in every reachable world state the ego's speed lies in
`[0.5, MAX_SPEED]` — the autopilot smoothing is clamped with floor 0.5
(not `MIN_SPEED`), manual keys respect the same bounds, and the collision
reset speed is 4.5. -/
theorem claim_C7 (s : SimState) (h : Reachable s) :
    1/2 ≤ s.ego.speed ∧ s.ego.speed ≤ MAX_SPEED :=
  speedOK_reachable h

/-- C7 witness: the invariant after one autopilot tick from the start. -/
theorem claim_C7_witness :
    1/2 ≤ (step initState 1 [] someChoice).ego.speed ∧
      (step initState 1 [] someChoice).ego.speed ≤ MAX_SPEED :=
  claim_C7 (step initState 1 [] someChoice)
    (Reachable.step 1 [] someChoice Reachable.init
      ⟨by decide, by decide, by decide, by decide, by decide, by decide, by decide⟩)

/-! ## Claim C10: totality of the lane-safety query and caller-side guards -/

/-- C10: `safe_to_change` is total on every integer lane (it is a plain
function, defined for out-of-range lanes such as -1 and `LANES`), returns
true whenever no traffic vehicle has that lane — hence always true on
out-of-range lanes in reachable states — and its callers guard the bounds:
the controller never answers `left` from lane 0 nor `right` from
`LANES - 1`, and the stepper's bounds-guarded commit keeps the ego's lane
in `[0, LANES)`. -/
theorem claim_C10 (traffic : List Car) (egoY : ℚ) (L : Int) (e : Car) (s : SimState)
    (a : Action) :
    ((∀ c ∈ traffic, c.lane ≠ L) → safe_to_change traffic egoY L = true)
    ∧ (Reachable s → (L < 0 ∨ LANES ≤ L) → safe_to_change s.traffic egoY L = true)
    ∧ (e.lane = 0 → (controller_rule_based e traffic).1 ≠ Action.left)
    ∧ (e.lane = LANES - 1 → (controller_rule_based e traffic).1 ≠ Action.right)
    ∧ (0 ≤ s.ego.lane → s.ego.lane < LANES →
        0 ≤ (commitLane s a).lane ∧ (commitLane s a).lane < LANES) := by
  refine ⟨safe_to_change_of_no_lane, ?_, ?_, ?_, fun h1 h2 => laneOK_commitLane a ⟨h1, h2⟩⟩
  · intro hr hout
    refine safe_to_change_of_no_lane ?_
    intro c hc
    obtain ⟨hc1, hc2⟩ := (lanesOK_reachable hr).2 c hc
    rcases hout with hout | hout <;> omega
  · intro hlane
    cases hf : find_vehicle_ahead traffic e.lane e.y with
    | none => simp [controller_rule_based, hf]
    | some b =>
        simp only [controller_rule_based, hf]
        split_ifs with hdist
        · rw [firstSafeLaneChange_pair, if_neg (by rintro ⟨h1, -, -⟩; omega)]
          split_ifs with hr
          · simp
          · simp
        · simp
  · intro hlane
    cases hf : find_vehicle_ahead traffic e.lane e.y with
    | none => simp [controller_rule_based, hf]
    | some b =>
        simp only [controller_rule_based, hf]
        split_ifs with hdist
        · rw [firstSafeLaneChange_pair]
          split_ifs with hl hr
          · simp
          · exact absurd hr (by rintro ⟨-, h2, -⟩; omega)
          · simp
        · simp

/-- C10 witness: the out-of-range lane -1 is reported safe against a
nonempty traffic list and in the reachable initial state, and the
controller refuses `left` from lane 0. -/
theorem claim_C10_witness :
    safe_to_change [crashCar] 0 (-1) = true ∧
    safe_to_change initState.traffic 0 (-1) = true ∧
    (controller_rule_based { lane := 0, y := 400, speed := 6, w := 40, h := 70, is_ego := true }
        [crashCar]).1 ≠ Action.left ∧
    (0 ≤ (commitLane initState Action.left).lane ∧
      (commitLane initState Action.left).lane < LANES) := by
  have h := claim_C10 [crashCar] 0 (-1)
      { lane := 0, y := 400, speed := 6, w := 40, h := 70, is_ego := true } initState
      Action.left
  exact ⟨h.1 (by decide), h.2.1 Reachable.init (Or.inl (by decide)), h.2.2.1 rfl,
    h.2.2.2.2 (by decide) (by decide)⟩

end Sim
